import Mathlib

/-!
Verification of the StockSense Smart-Money engine (`stocksense_engine.py`,
`app_pro.py`) against its natural-language specification.

The Python code computes on IEEE-754 doubles via pandas/numpy.  We embed a
float value as a rational number together with the three special values
`inf`, `-inf` and `nan`, and give the arithmetic and comparison operations
the IEEE semantics that pandas/numpy exhibit on the operations the code
performs (division by zero yields a signed infinity or `nan`, `nan`
propagates through arithmetic, every ordered comparison against `nan` is
false).  Rounding of real arithmetic is abstracted: finite values are exact
rationals.
-/

/-- A pandas/numpy float value: a finite rational or one of the IEEE
special values. -/
inductive FVal where
  | fin (q : ℚ)
  | inf
  | ninf
  | nan
deriving DecidableEq

namespace FVal

/-- IEEE negation. -/
def fneg : FVal → FVal
  | .fin a => .fin (-a)
  | .inf => .ninf
  | .ninf => .inf
  | .nan => .nan

/-- IEEE addition: `nan` propagates, `inf + (-inf)` is `nan`. -/
def fadd : FVal → FVal → FVal
  | .fin a, .fin b => .fin (a + b)
  | .nan, _ => .nan
  | _, .nan => .nan
  | .inf, .ninf => .nan
  | .ninf, .inf => .nan
  | .inf, _ => .inf
  | _, .inf => .inf
  | .ninf, _ => .ninf
  | _, .ninf => .ninf

/-- IEEE subtraction. -/
def fsub (a b : FVal) : FVal := fadd a (fneg b)

/-- IEEE multiplication: `nan` propagates, `±inf * 0` is `nan`. -/
def fmul : FVal → FVal → FVal
  | .fin a, .fin b => .fin (a * b)
  | .nan, _ => .nan
  | _, .nan => .nan
  | .inf, .fin b => if 0 < b then .inf else if b < 0 then .ninf else .nan
  | .fin a, .inf => if 0 < a then .inf else if a < 0 then .ninf else .nan
  | .ninf, .fin b => if 0 < b then .ninf else if b < 0 then .inf else .nan
  | .fin a, .ninf => if 0 < a then .ninf else if a < 0 then .inf else .nan
  | .inf, .inf => .inf
  | .inf, .ninf => .ninf
  | .ninf, .inf => .ninf
  | .ninf, .ninf => .inf

/-- IEEE division: a nonzero finite value divided by zero is a signed
infinity, `0/0` is `nan`, a finite value divided by an infinity is zero. -/
def fdiv : FVal → FVal → FVal
  | .nan, _ => .nan
  | _, .nan => .nan
  | .fin a, .fin b =>
      if b = 0 then (if 0 < a then .inf else if a < 0 then .ninf else .nan)
      else .fin (a / b)
  | .fin _, .inf => .fin 0
  | .fin _, .ninf => .fin 0
  | .inf, .fin b => if 0 ≤ b then .inf else .ninf
  | .ninf, .fin b => if 0 ≤ b then .ninf else .inf
  | .inf, .inf => .nan
  | .inf, .ninf => .nan
  | .ninf, .inf => .nan
  | .ninf, .ninf => .nan

/-- IEEE ordered less-than as a boolean: any comparison involving `nan`
is false.  This is the semantics of `<` and `>` in numpy/pandas masks. -/
def fltB : FVal → FVal → Bool
  | .nan, _ => false
  | _, .nan => false
  | .fin a, .fin b => decide (a < b)
  | .fin _, .inf => true
  | .ninf, .fin _ => true
  | .ninf, .inf => true
  | .inf, _ => false
  | _, .ninf => false

/-- `a > b` in float semantics. -/
def fgtB (a b : FVal) : Bool := fltB b a

/-- `Series.fillna(c)`: replace `nan` by the constant `c`; infinities are
NOT replaced (pandas `fillna` only fills `NaN`). -/
def fillnaC (c : ℚ) : FVal → FVal
  | .nan => .fin c
  | v => v

/-- Whether the value is a finite number. -/
def isFinite : FVal → Bool
  | .fin _ => true
  | _ => false

end FVal

open FVal

/-!
## Data model

One daily OHLCV bar (`Bar`); a series is a `List Bar` in chronological
order, mirroring the dataframe rows of the Python code.
-/

/-- One daily OHLCV bar.  The raw input columns are finite floats,
embedded as exact rationals. -/
structure Bar where
  open_ : ℚ
  high : ℚ
  low : ℚ
  close : ℚ
  volume : ℚ
deriving DecidableEq

/-- The data-model invariant on a bar assumed from the market-data source:
prices are non-negative, `low ≤ close ≤ high`, volume is non-negative. -/
def ValidBar (b : Bar) : Prop :=
  0 ≤ b.low ∧ b.low ≤ b.close ∧ b.close ≤ b.high ∧ 0 ≤ b.volume

instance (b : Bar) : Decidable (ValidBar b) := by unfold ValidBar; infer_instance

def defaultBar : Bar := ⟨0, 0, 0, 0, 0⟩

/-- Row `i` of the dataframe (out-of-range access yields the default bar;
all theorems only use in-range indices). -/
def barAt (df : List Bar) (i : ℕ) : Bar := df.getD i defaultBar

def closeAt (df : List Bar) (i : ℕ) : ℚ := (barAt df i).close
def volAt (df : List Bar) (i : ℕ) : ℚ := (barAt df i).volume

/-!
## Indicator Engine (`DataIngestion.calculate_indicators`)

Each dataframe column is embedded as a function from the row index to a
value.  `rollSum w g i` is `Series.rolling(window=w).sum()` at index `i`:
`NaN` while fewer than `w` rows of history exist, otherwise the sum over
the trailing window `[i-w+1, i]`.  Columns that the Python code builds
from finite inputs without division (`tp`, raw money flow, gains, losses,
positive/negative flow, volume) contain no `NaN`/`inf` and are embedded
directly as rational-valued columns; the `NaN`-comparison-is-false
behaviour of `tp > tp.shift(1)` (resp. `delta.where`) at index 0 is folded
into the `0 < i` guard.

The `std_20` / Bollinger-band columns are not embedded: they require an
irrational square root and are consumed by no downstream logic and no
claim.
-/

/-- Typical price `(high + low + close) / 3`. -/
def tpAt (df : List Bar) (i : ℕ) : ℚ :=
  ((barAt df i).high + (barAt df i).low + (barAt df i).close) / 3

/-- Raw money flow `tp * volume`. -/
def rmfAt (df : List Bar) (i : ℕ) : ℚ := tpAt df i * volAt df i

/-- `delta.where(delta > 0, 0)` where `delta = close.diff()`:
at index 0 the diff is `NaN` and the mask is false, giving 0. -/
def gainAt (df : List Bar) (i : ℕ) : ℚ :=
  if 0 < i ∧ closeAt df (i - 1) < closeAt df i
  then closeAt df i - closeAt df (i - 1) else 0

/-- `-delta.where(delta < 0, 0)`. -/
def lossAt (df : List Bar) (i : ℕ) : ℚ :=
  if 0 < i ∧ closeAt df i < closeAt df (i - 1)
  then closeAt df (i - 1) - closeAt df i else 0

/-- `np.where(tp > tp.shift(1), raw_money_flow, 0)`. -/
def posFlowAt (df : List Bar) (i : ℕ) : ℚ :=
  if 0 < i ∧ tpAt df (i - 1) < tpAt df i then rmfAt df i else 0

/-- `np.where(tp < tp.shift(1), raw_money_flow, 0)`. -/
def negFlowAt (df : List Bar) (i : ℕ) : ℚ :=
  if 0 < i ∧ tpAt df i < tpAt df (i - 1) then rmfAt df i else 0

/-- The trailing window `[i-w+1, i]` of a rational column, as a list. -/
def winList (w : ℕ) (g : ℕ → ℚ) (i : ℕ) : List ℚ :=
  (List.range w).map (fun k => g (i + 1 - w + k))

/-- Sum of the trailing window of a rational column. -/
def winSum (w : ℕ) (g : ℕ → ℚ) (i : ℕ) : ℚ := (winList w g i).sum

/-- `Series.rolling(window=w).sum()` on a `NaN`-free column. -/
def rollSum (w : ℕ) (g : ℕ → ℚ) (i : ℕ) : FVal :=
  if i + 1 < w then .nan else .fin (winSum w g i)

/-- `Series.rolling(window=w).mean()` on a `NaN`-free column. -/
def rollMean (w : ℕ) (g : ℕ → ℚ) (i : ℕ) : FVal :=
  fdiv (rollSum w g i) (.fin w)

/-- Rolling sum of a float-valued column (used for `mfv`, whose entries
are float values in general). -/
def rollSumF (w : ℕ) (g : ℕ → FVal) (i : ℕ) : FVal :=
  if i + 1 < w then .nan
  else ((List.range w).map (fun k => g (i + 1 - w + k))).foldr fadd (.fin 0)

/-- `vwap`: rolling-20 `sum(tp*vol)/sum(vol)`, then `fillna(close)`. -/
def vwapAt (df : List Bar) (i : ℕ) : FVal :=
  fillnaC (closeAt df i)
    (fdiv (rollSum 20 (rmfAt df) i) (rollSum 20 (volAt df) i))

/-- `sma_20`: rolling-20 mean of close. -/
def sma20At (df : List Bar) (i : ℕ) : FVal := rollMean 20 (closeAt df) i

/-- `rs = gain.rolling(14).mean() / loss.rolling(14).mean()`. -/
def rsAt (df : List Bar) (i : ℕ) : FVal :=
  fdiv (rollMean 14 (gainAt df) i) (rollMean 14 (lossAt df) i)

/-- The shared oscillator shape `100 - 100 / (1 + r)` of RSI and MFI. -/
def osc100 (r : FVal) : FVal :=
  fsub (.fin 100) (fdiv (.fin 100) (fadd (.fin 1) r))

/-- `rsi = 100 - 100/(1+rs)`, then `fillna(50)`. -/
def rsiAt (df : List Bar) (i : ℕ) : FVal := fillnaC 50 (osc100 (rsAt df i))

/-- `vol_ma_20`: rolling-20 mean of volume. -/
def volMa20At (df : List Bar) (i : ℕ) : FVal := rollMean 20 (volAt df) i

/-- `rvol = volume / vol_ma_20`, then `fillna(1.0)`. -/
def rvolAt (df : List Bar) (i : ℕ) : FVal :=
  fillnaC 1 (fdiv (.fin (volAt df i)) (volMa20At df i))

/-- `mfi_ratio = positive_mf_sum / negative_mf_sum` (rolling-14 sums). -/
def mfiRatAt (df : List Bar) (i : ℕ) : FVal :=
  fdiv (rollSum 14 (posFlowAt df) i) (rollSum 14 (negFlowAt df) i)

/-- `mfi = 100 - 100/(1+mfi_ratio)`, then `fillna(50)`. -/
def mfiAt (df : List Bar) (i : ℕ) : FVal := fillnaC 50 (osc100 (mfiRatAt df i))

/-- Money-flow multiplier of one bar:
`((close-low)-(high-close))/(high-low)` followed by `fillna(0)`. -/
def mfmOf (b : Bar) : FVal :=
  fillnaC 0
    (fdiv (.fin ((b.close - b.low) - (b.high - b.close))) (.fin (b.high - b.low)))

/-- Money-flow volume `mfm * volume`. -/
def mfvAt (df : List Bar) (i : ℕ) : FVal :=
  fmul (mfmOf (barAt df i)) (.fin (volAt df i))

/-- `cmf = mfv.rolling(20).sum() / volume.rolling(20).sum()`, then
`fillna(0)`. -/
def cmfAt (df : List Bar) (i : ℕ) : FVal :=
  fillnaC 0 (fdiv (rollSumF 20 (mfvAt df) i) (rollSum 20 (volAt df) i))

/-- `sma_200`: rolling-200 mean of close (no fallback fill). -/
def sma200At (df : List Bar) (i : ℕ) : FVal := rollMean 200 (closeAt df) i

/-- One fully-enriched indicator row, as consumed by the analyzer and the
presentation layer. -/
structure IndRow where
  open_ : ℚ
  high : ℚ
  low : ℚ
  close : ℚ
  volume : ℚ
  vwap : FVal
  sma_20 : FVal
  rsi : FVal
  vol_ma_20 : FVal
  rvol : FVal
  mfi : FVal
  cmf : FVal
  sma_200 : FVal
deriving DecidableEq

/-- Row `i` of the enriched dataframe. -/
def indRowAt (df : List Bar) (i : ℕ) : IndRow :=
  { open_ := (barAt df i).open_
    high := (barAt df i).high
    low := (barAt df i).low
    close := (barAt df i).close
    volume := (barAt df i).volume
    vwap := vwapAt df i
    sma_20 := sma20At df i
    rsi := rsiAt df i
    vol_ma_20 := volMa20At df i
    rvol := rvolAt df i
    mfi := mfiAt df i
    cmf := cmfAt df i
    sma_200 := sma200At df i }

/-- `DataIngestion.calculate_indicators`: the enriched series. -/
def calculate_indicators (df : List Bar) : List IndRow :=
  (List.range df.length).map (indRowAt df)

/-!
## Safety Filter (`DataIngestion.check_safety_criteria`)

The numeric interpolation inside the failure reason strings is a
presentation detail (the spec leaves the wording open except for
"Insufficient Data"); the reasons here keep fixed wording.
-/

/-- Most recent close: the last entry of the close column. -/
def lastClose (df : List Bar) : ℚ := closeAt df (df.length - 1)

/-- Mean volume over the trailing 20 bars: the mean of the last 20
entries of the volume column (only evaluated once the series is known to
hold at least 20 bars, so the slice holds exactly 20 bars). -/
def avgVol20 (df : List Bar) : ℚ :=
  ((df.drop (df.length - 20)).map Bar.volume).sum / 20

/-- `DataIngestion.check_safety_criteria`. -/
def check_safety_criteria (df : List Bar) : Bool × String :=
  if df.length < 20 then (false, "Insufficient Data")
  else
    let last_close := lastClose df
    let avg_liquidity := avgVol20 df * last_close
    if last_close ≤ 60 then (false, "Price too low")
    else if avg_liquidity < 2000000000 then (false, "Low Liquidity")
    else (true, "Pass")

/-!
## Signal Scorer (`SmartMoneyAnalyzer.analyze_single_row`)

The analyzer reads the float fields `rvol`, `cmf`, `close`, `vwap`, `mfi`
of one enriched row; every comparison is a float comparison (false when a
side is `nan`).  The literal constants 1.5, 0.15, 0.05, -0.05, 30, 75 are
embedded as exact rationals.
-/

/-- The analyzer result: status, integer score, joined narrative. -/
structure AnalysisOutcome where
  status : String
  score : ℤ
  details : String
deriving DecidableEq

/-- `SmartMoneyAnalyzer.analyze_single_row` (Logic Patch v2.1). -/
def analyze_single_row (row : IndRow) : AnalysisOutcome :=
  -- 1. Volume Explosion
  let nar1 : List String :=
    if fgtB row.rvol (.fin (3 / 2)) then ["VOLUME SPIKE (> 1.5x)."] else []
  let score1 : ℤ := if fgtB row.rvol (.fin (3 / 2)) then 2 else 0
  -- 2. Smart Money Flow (CMF) - tiered, first match wins
  let nar2 : List String := nar1 ++
    (if fgtB row.cmf (.fin (3 / 20)) then
      ["Strong Institutional Accumulation (CMF > 0.15)."]
    else if fgtB row.cmf (.fin (1 / 20)) then ["Moderate Inflow (CMF > 0.05)."]
    else if fltB row.cmf (.fin (-(1 / 20))) then
      ["Distribution Detected (CMF < -0.05)."]
    else [])
  let score2 : ℤ := score1 +
    (if fgtB row.cmf (.fin (3 / 20)) then 2
    else if fgtB row.cmf (.fin (1 / 20)) then 1
    else 0)
  -- 3. Trend Confirmation
  let nar3 : List String := nar2 ++
    (if fgtB (.fin row.close) row.vwap then ["Bullish Trend > VWAP."]
    else ["Price below Intraday Trend (VWAP)."])
  let score3 : ℤ := score2 + (if fgtB (.fin row.close) row.vwap then 1 else 0)
  -- 4. Strategic Dip Buy / Overbought
  let nar4 : List String := nar3 ++
    (if fltB row.mfi (.fin 30) && fgtB (.fin row.close) row.vwap then
      ["Strategic Dip Buy (Oversold + Uptrend)."]
    else if fgtB row.mfi (.fin 75) then ["Overbought Conditions."]
    else [])
  let score4 : ℤ := score3 +
    (if fltB row.mfi (.fin 30) && fgtB (.fin row.close) row.vwap then 1 else 0)
  -- Cap max score at 5
  let score : ℤ := min score4 5
  let status : String :=
    if 4 ≤ score then "STRONG BUY"
    else if 2 ≤ score then "ACCUMULATION"
    else "NEUTRAL/WAIT"
  { status := status
    score := score
    details :=
      if nar4.isEmpty then "No significant anomalies."
      else String.intercalate " " nar4 }

/-!
## Scan Orchestrator (`app_pro.main`, screener page)

The Python decision engine on the scan button:
manual text (truthy after `.strip()`) wins and is parsed with
`.upper().replace(" ", "").split(",")` filtered for truthiness; otherwise
a selected sector supplies its ticker list; otherwise the app warns and
stops (`st.stop()`).  The dispatched ticker list is `list(set(...))`
(deduplication; the arbitrary set order is modelled by order-preserving
`dedup`, harmless since every downstream consumer sorts).  Each worker
either yields one result row or is dropped (fetch failure, safety-filter
failure, or a swallowed per-ticker exception) — modelled by a
`String → Option ScanResult` capability.  When `valid_results` is empty
the app shows the "No stocks passed the Safety Filters" warning.

Python string primitives used by the parsing are re-implemented
structurally on the character list of the string.
-/

/-- ASCII whitespace recognised by python `str.strip()` (the forms that
can occur in a text field). -/
def isSpaceChar (c : Char) : Bool :=
  c = ' ' ∨ c = '\t' ∨ c = '\n' ∨ c = '\r'

/-- Truthiness of `s.strip()`: some character survives the strip, i.e.
the string has a non-whitespace character. -/
def strippedNonempty (s : String) : Bool :=
  s.data.any (fun c => ¬ isSpaceChar c)

/-- The python comma split on the character list: empty segments are
kept, exactly as in python, where splitting "a,,b" on the comma yields
the three segments a, blank, b. -/
def splitComma : List Char → List (List Char)
  | [] => [[]]
  | c :: rest =>
    match splitComma rest with
    | [] => [[]]
    | g :: gs => if c = ',' then [] :: g :: gs else (c :: g) :: gs

/-- `user_tickers.upper().replace(" ", "").split(",")` followed by the
truthiness filter `[t for t in raw_list if t]`. -/
def parseManualTickers (s : String) : List String :=
  ((splitComma ((s.data.map Char.toUpper).filter (fun c => c ≠ ' '))).map
    (fun cs => String.mk cs)).filter (fun t => t ≠ "")

/-- The scan modes of the screener. -/
inductive ScanMode where
  | manual
  | sectorTop10
deriving DecidableEq

/-- The decision engine: manual input wins, then sector, else the app
warns and stops (`none`). -/
def decideTickers (userTickers selectedSector : String)
    (sectorMap : String → List String) : Option (ScanMode × List String) :=
  if strippedNonempty userTickers then
    some (.manual, parseManualTickers userTickers)
  else if selectedSector ≠ "Manual Input / None" then
    some (.sectorTop10, sectorMap selectedSector)
  else none

/-- One row of `valid_results` (the formatted `Close` string column is a
presentation detail and is not modelled). -/
structure ScanResult where
  ticker : String
  rvolToday : ℚ
  maxRvol14 : ℚ
  mfi : ℚ
  cmf : ℚ
  status : String
  score : ℤ
deriving DecidableEq

/-- The composite ranking key of "top-N by sector" mode: `a` precedes `b`
when `a` has the higher score, or equal scores and `a` has the
greater-or-equal RVOL — i.e. non-increasing lexicographic
`(Score, RVOL-today)`. -/
def scoreRvolGE (a b : ScanResult) : Prop :=
  b.score < a.score ∨ (a.score = b.score ∧ b.rvolToday ≤ a.rvolToday)

instance : DecidableRel scoreRvolGE := fun a b => by
  unfold scoreRvolGE; infer_instance

/-- `df_res.sort_values(by=["Signal Score", "RVOL (Today)"],
ascending=[False, False]).head(10)`. -/
def rankTop10 (rs : List ScanResult) : List ScanResult :=
  (List.insertionSort scoreRvolGE rs).take 10

/-- Manual mode: `sort_values(by="Max RVOL (14D)", ascending=False)`. -/
def sortManual (rs : List ScanResult) : List ScanResult :=
  List.insertionSort (fun a b => b.maxRvol14 ≤ a.maxRvol14) rs

/-- The user-visible outcome of pressing the scan button. -/
inductive ScanOutcome where
  | invalidRequest
  | noMatches
  | results (rows : List ScanResult)
deriving DecidableEq

/-- The full scan pipeline of the screener page: decision engine, worker
dispatch over the deduplicated tickers (each worker yielding at most one
row), empty-result warning, ranking. -/
def scanApp (userTickers selectedSector : String)
    (sectorMap : String → List String)
    (perTicker : String → Option ScanResult) : ScanOutcome :=
  match decideTickers userTickers selectedSector sectorMap with
  | none => .invalidRequest
  | some (mode, ts) =>
    let valid := (ts.dedup).filterMap perTicker
    if valid = [] then .noMatches
    else .results (match mode with
      | .sectorTop10 => rankTop10 valid
      | .manual => sortManual valid)

/-!
## Helper lemmas on the float model and the rolling windows
-/

theorem isFinite_iff (v : FVal) : v.isFinite = true ↔ ∃ q, v = .fin q := by
  cases v <;> simp [FVal.isFinite]

theorem fadd_fin_fin (a b : ℚ) : fadd (.fin a) (.fin b) = .fin (a + b) := rfl

theorem fillnaC_fin (c q : ℚ) : fillnaC c (.fin q) = .fin q := rfl

theorem fillnaC_nan (c : ℚ) : fillnaC c .nan = .fin c := rfl

theorem fdiv_fin_nan (v : FVal) : fdiv v .nan = .nan := by
  cases v <;> rfl

theorem fdiv_nan_left (v : FVal) : fdiv .nan v = .nan := by
  cases v <;> rfl

theorem fdiv_fin_fin_ne (a b : ℚ) (hb : b ≠ 0) :
    fdiv (.fin a) (.fin b) = .fin (a / b) := by
  simp [fdiv, hb]

theorem fdiv_fin_zero_pos (a : ℚ) (ha : 0 < a) :
    fdiv (.fin a) (.fin 0) = .inf := by
  simp [fdiv, ha]

theorem fdiv_zero_zero : fdiv (.fin 0) (.fin 0) = .nan := by
  norm_num [fdiv]

/-- `100 - 100/(1+r)` on `nan`. -/
theorem osc100_nan : osc100 .nan = .nan := rfl

/-- `100 - 100/(1+r)` on `inf`: the value is exactly 100. -/
theorem osc100_inf : osc100 .inf = .fin 100 := by
  norm_num [osc100, fadd, fdiv, fsub, fneg]

/-- `100 - 100/(1+q)` on a non-negative finite ratio. -/
theorem osc100_fin_nonneg (q : ℚ) (hq : 0 ≤ q) :
    osc100 (.fin q) = .fin (100 - 100 / (1 + q)) := by
  have h1 : (1 : ℚ) + q ≠ 0 := by positivity
  simp [osc100, fadd_fin_fin, fdiv_fin_fin_ne _ _ h1, fsub, fneg, fadd_fin_fin]
  ring

theorem foldr_fadd_isFinite (l : List FVal)
    (h : ∀ x ∈ l, x.isFinite = true) :
    (l.foldr fadd (.fin 0)).isFinite = true := by
  induction l with
  | nil => rfl
  | cons a t ih =>
    have ha := h a (List.mem_cons_self a t)
    have ht := ih (fun x hx => h x (List.mem_cons_of_mem a hx))
    rcases (isFinite_iff _).mp ha with ⟨qa, rfl⟩
    rcases (isFinite_iff _).mp ht with ⟨qt, hqt⟩
    simp [List.foldr_cons, hqt, fadd_fin_fin, FVal.isFinite]

theorem foldr_fadd_zero (l : List FVal) (h : ∀ x ∈ l, x = .fin 0) :
    l.foldr fadd (.fin 0) = .fin 0 := by
  induction l with
  | nil => rfl
  | cons a t ih =>
    have ha := h a (List.mem_cons_self a t)
    have ht := ih (fun x hx => h x (List.mem_cons_of_mem a hx))
    simp [List.foldr_cons, ha, ht, fadd_fin_fin]

theorem winSum_nonneg (w : ℕ) (g : ℕ → ℚ) (i : ℕ) (hg : ∀ j, 0 ≤ g j) :
    0 ≤ winSum w g i := by
  apply List.sum_nonneg
  intro x hx
  rcases List.mem_map.mp hx with ⟨k, _, rfl⟩
  exact hg _

theorem winSum_elem_zero (w : ℕ) (g : ℕ → ℚ) (i : ℕ)
    (hg : ∀ j, 0 ≤ g j) (hz : winSum w g i = 0) :
    ∀ k, k < w → g (i + 1 - w + k) = 0 := by
  intro k hk
  apply List.all_zero_of_le_zero_le_of_sum_eq_zero
    (l := winList w g i) ?_ hz
  · exact List.mem_map.mpr ⟨k, List.mem_range.mpr hk, rfl⟩
  · intro x hx
    rcases List.mem_map.mp hx with ⟨k0, _, rfl⟩
    exact hg _

theorem win_last_idx (w i : ℕ) (hw : 0 < w) (hi : w ≤ i + 1) :
    i + 1 - w + (w - 1) = i := by omega

/-!
## Column-level facts under the bar invariant
-/

theorem validBar_barAt (df : List Bar) (h : ∀ b ∈ df, ValidBar b) (i : ℕ) :
    ValidBar (barAt df i) := by
  unfold barAt
  rcases lt_or_ge i df.length with hi | hi
  · rw [List.getD_eq_getElem _ _ hi]
    exact h _ (List.getElem_mem hi)
  · rw [List.getD_eq_default _ _ hi]
    exact ⟨le_refl 0, le_refl 0, le_refl 0, le_refl 0⟩

theorem tpAt_nonneg (df : List Bar) (h : ∀ j, ValidBar (barAt df j)) (i : ℕ) :
    0 ≤ tpAt df i := by
  rcases h i with ⟨h1, h2, h3, _⟩
  unfold tpAt
  have hl : 0 ≤ (barAt df i).low := h1
  have hc : 0 ≤ (barAt df i).close := le_trans h1 h2
  have hh : 0 ≤ (barAt df i).high := le_trans hc h3
  positivity

theorem volAt_nonneg (df : List Bar) (h : ∀ j, ValidBar (barAt df j)) (j : ℕ) :
    0 ≤ volAt df j := (h j).2.2.2

theorem rmfAt_nonneg (df : List Bar) (h : ∀ j, ValidBar (barAt df j)) (i : ℕ) :
    0 ≤ rmfAt df i :=
  mul_nonneg (tpAt_nonneg df h i) (volAt_nonneg df h i)

theorem gainAt_nonneg (df : List Bar) (i : ℕ) : 0 ≤ gainAt df i := by
  unfold gainAt
  split
  · rename_i hcond
    linarith [hcond.2]
  · exact le_refl 0

theorem lossAt_nonneg (df : List Bar) (i : ℕ) : 0 ≤ lossAt df i := by
  unfold lossAt
  split
  · rename_i hcond
    linarith [hcond.2]
  · exact le_refl 0

theorem posFlowAt_nonneg (df : List Bar) (h : ∀ j, ValidBar (barAt df j))
    (i : ℕ) : 0 ≤ posFlowAt df i := by
  unfold posFlowAt
  split
  · exact rmfAt_nonneg df h i
  · exact le_refl 0

theorem negFlowAt_nonneg (df : List Bar) (h : ∀ j, ValidBar (barAt df j))
    (i : ℕ) : 0 ≤ negFlowAt df i := by
  unfold negFlowAt
  split
  · exact rmfAt_nonneg df h i
  · exact le_refl 0

/-- Under the bar invariant the money-flow multiplier is a finite value:
`high == low` forces `close == low == high`, so the division is `0/0`,
whose `NaN` the immediate `fillna(0)` turns into 0. -/
theorem mfmOf_isFinite (b : Bar) (hb : ValidBar b) :
    ∃ m : ℚ, mfmOf b = .fin m := by
  rcases hb with ⟨_, h2, h3, _⟩
  unfold mfmOf
  by_cases hhl : b.high - b.low = 0
  · have hcl : b.close = b.low := le_antisymm (by linarith) h2
    have hnum : (b.close - b.low) - (b.high - b.close) = 0 := by
      rw [hcl]; linarith
    rw [hnum, hhl, fdiv_zero_zero, fillnaC_nan]
    exact ⟨0, rfl⟩
  · rw [fdiv_fin_fin_ne _ _ hhl, fillnaC_fin]
    exact ⟨_, rfl⟩

/-!
## Per-column totality of the Indicator Engine
-/

theorem rsiAt_isFinite (df : List Bar) (i : ℕ) :
    (rsiAt df i).isFinite = true := by
  unfold rsiAt rsAt rollMean rollSum
  by_cases hi : i + 1 < 14
  · simp [hi, fdiv_nan_left, fdiv_fin_nan, osc100_nan, fillnaC_nan,
      FVal.isFinite]
  · simp only [hi, if_false]
    have h14 : ((14 : ℕ) : ℚ) ≠ 0 := by norm_num
    rw [fdiv_fin_fin_ne _ _ h14, fdiv_fin_fin_ne _ _ h14]
    have hg : 0 ≤ winSum 14 (gainAt df) i / ((14 : ℕ) : ℚ) :=
      div_nonneg (winSum_nonneg _ _ _ (gainAt_nonneg df)) (by norm_num)
    have hl : 0 ≤ winSum 14 (lossAt df) i / ((14 : ℕ) : ℚ) :=
      div_nonneg (winSum_nonneg _ _ _ (lossAt_nonneg df)) (by norm_num)
    by_cases hz : winSum 14 (lossAt df) i / ((14 : ℕ) : ℚ) = 0
    · rw [hz]
      rcases lt_or_eq_of_le hg with hgpos | hg0
      · rw [fdiv_fin_zero_pos _ hgpos, osc100_inf, fillnaC_fin]; rfl
      · rw [← hg0, fdiv_zero_zero, osc100_nan, fillnaC_nan]; rfl
    · rw [fdiv_fin_fin_ne _ _ hz,
        osc100_fin_nonneg _ (div_nonneg hg hl), fillnaC_fin]
      rfl

theorem rvolAt_isFinite (df : List Bar) (h : ∀ j, ValidBar (barAt df j))
    (i : ℕ) : (rvolAt df i).isFinite = true := by
  unfold rvolAt volMa20At rollMean rollSum
  by_cases hi : i + 1 < 20
  · simp [hi, fdiv_nan_left, fdiv_fin_nan, fillnaC_nan, FVal.isFinite]
  · simp only [hi, if_false]
    have h20 : ((20 : ℕ) : ℚ) ≠ 0 := by norm_num
    rw [fdiv_fin_fin_ne _ _ h20]
    by_cases hz : winSum 20 (volAt df) i / ((20 : ℕ) : ℚ) = 0
    · have hs0 : winSum 20 (volAt df) i = 0 := by
        field_simp at hz; exact hz
      have hvi : volAt df i = 0 := by
        have := winSum_elem_zero 20 (volAt df) i (volAt_nonneg df h) hs0
          19 (by norm_num)
        rwa [win_last_idx 20 i (by norm_num) (by omega)] at this
      rw [hz, hvi, fdiv_zero_zero, fillnaC_nan]; rfl
    · rw [fdiv_fin_fin_ne _ _ hz, fillnaC_fin]; rfl

theorem mfiAt_isFinite (df : List Bar) (h : ∀ j, ValidBar (barAt df j))
    (i : ℕ) : (mfiAt df i).isFinite = true := by
  unfold mfiAt mfiRatAt rollSum
  by_cases hi : i + 1 < 14
  · simp [hi, fdiv_nan_left, osc100_nan, fillnaC_nan, FVal.isFinite]
  · simp only [hi, if_false]
    have hp : 0 ≤ winSum 14 (posFlowAt df) i :=
      winSum_nonneg _ _ _ (posFlowAt_nonneg df h)
    by_cases hz : winSum 14 (negFlowAt df) i = 0
    · rw [hz]
      rcases lt_or_eq_of_le hp with hppos | hp0
      · rw [fdiv_fin_zero_pos _ hppos, osc100_inf, fillnaC_fin]; rfl
      · rw [← hp0, fdiv_zero_zero, osc100_nan, fillnaC_nan]; rfl
    · have hn : 0 ≤ winSum 14 (negFlowAt df) i :=
        winSum_nonneg _ _ _ (negFlowAt_nonneg df h)
      rw [fdiv_fin_fin_ne _ _ hz,
        osc100_fin_nonneg _ (div_nonneg hp hn), fillnaC_fin]
      rfl

theorem cmfAt_isFinite (df : List Bar) (h : ∀ j, ValidBar (barAt df j))
    (i : ℕ) : (cmfAt df i).isFinite = true := by
  unfold cmfAt rollSumF rollSum
  by_cases hi : i + 1 < 20
  · simp [hi, fdiv_nan_left, fillnaC_nan, FVal.isFinite]
  · simp only [hi, if_false]
    have hmfvFin : ∀ j, (mfvAt df j).isFinite = true := by
      intro j
      rcases mfmOf_isFinite (barAt df j) (h j) with ⟨m, hm⟩
      unfold mfvAt
      rw [hm]
      rfl
    by_cases hz : winSum 20 (volAt df) i = 0
    · have hv0 : ∀ k, k < 20 → volAt df (i + 1 - 20 + k) = 0 :=
        winSum_elem_zero 20 (volAt df) i (volAt_nonneg df h) hz
      have hall0 : ((List.range 20).map
          (fun k => mfvAt df (i + 1 - 20 + k))).foldr fadd (.fin 0)
          = .fin 0 := by
        apply foldr_fadd_zero
        intro x hx
        rcases List.mem_map.mp hx with ⟨k, hk, rfl⟩
        rcases mfmOf_isFinite (barAt df (i + 1 - 20 + k))
          (h _) with ⟨m, hm⟩
        unfold mfvAt
        rw [hm, hv0 k (List.mem_range.mp hk)]
        simp [fmul]
      rw [hall0, hz, fdiv_zero_zero, fillnaC_nan]; rfl
    · have hfin : (((List.range 20).map
          (fun k => mfvAt df (i + 1 - 20 + k))).foldr fadd
          (.fin 0)).isFinite = true := by
        apply foldr_fadd_isFinite
        intro x hx
        rcases List.mem_map.mp hx with ⟨k, _, rfl⟩
        exact hmfvFin _
      rcases (isFinite_iff _).mp hfin with ⟨s, hs⟩
      rw [hs, fdiv_fin_fin_ne _ _ hz, fillnaC_fin]; rfl

/-!
## Evaluation lemmas for concrete series
-/

theorem barAt_replicate (n : ℕ) (b : Bar) (i : ℕ) (h : i < n) :
    barAt (List.replicate n b) i = b := by
  unfold barAt
  rw [List.getD_eq_getElem _ _ (by simpa using h), List.getElem_replicate]

theorem barAt_ofFn (n : ℕ) (f : ℕ → Bar) (i : ℕ) (h : i < n) :
    barAt ((List.range n).map f) i = f i := by
  unfold barAt
  rw [List.getD_eq_getElem _ _ (by simpa using h)]
  simp

/-- A window whose entries are all the constant `c` sums to `w * c`. -/
theorem winSum_const (w : ℕ) (g : ℕ → ℚ) (i : ℕ) (c : ℚ)
    (h : ∀ k, k < w → g (i + 1 - w + k) = c) :
    winSum w g i = w * c := by
  unfold winSum winList
  rw [List.map_eq_map_iff.mpr (fun k hk => h k (List.mem_range.mp hk))]
  rw [List.map_const', List.sum_replicate, List.length_range, nsmul_eq_mul]

/-!
## Concrete test series
-/

/-- The flat 25-bar series of the specification scenario:
`open = high = low = close = 100`, `volume = 1000` on every bar. -/
def flatDf : List Bar := List.replicate 25 ⟨100, 100, 100, 100, 1000⟩

/-- A 15-bar strictly rising series: bar `j` has all prices `100 + j` and
volume 1000, so the typical price rises on every step. -/
def incDf : List Bar :=
  (List.range 15).map (fun j : ℕ =>
    ⟨100 + (j : ℚ), 100 + (j : ℚ), 100 + (j : ℚ), 100 + (j : ℚ), 1000⟩)

theorem flatDf_barAt (i : ℕ) (h : i < 25) :
    barAt flatDf i = ⟨100, 100, 100, 100, 1000⟩ :=
  barAt_replicate 25 _ i h

theorem flatDf_tpAt (i : ℕ) (h : i < 25) : tpAt flatDf i = 100 := by
  unfold tpAt
  rw [flatDf_barAt i h]
  norm_num

theorem flatDf_volAt (i : ℕ) (h : i < 25) : volAt flatDf i = 1000 := by
  unfold volAt
  rw [flatDf_barAt i h]

theorem flatDf_closeAt (i : ℕ) (h : i < 25) : closeAt flatDf i = 100 := by
  unfold closeAt
  rw [flatDf_barAt i h]

theorem flatDf_vol_winSum : winSum 20 (volAt flatDf) 24 = 20000 := by
  rw [winSum_const 20 _ 24 1000 (fun k hk => flatDf_volAt _ (by omega))]
  norm_num

theorem flatDf_rvol : rvolAt flatDf 24 = .fin 1 := by
  unfold rvolAt volMa20At rollMean rollSum
  norm_num [flatDf_vol_winSum, flatDf_volAt 24 (by norm_num)]
  rw [fdiv_fin_fin_ne _ _ (by norm_num : (20:ℚ) ≠ 0)]
  norm_num
  rw [fdiv_fin_fin_ne _ _ (by norm_num : (1000:ℚ) ≠ 0), fillnaC_fin]
  norm_num

theorem flatDf_vwap : vwapAt flatDf 24 = .fin 100 := by
  unfold vwapAt rollSum
  have hrmf : winSum 20 (rmfAt flatDf) 24 = 2000000 := by
    rw [winSum_const 20 _ 24 100000 ?_]
    · norm_num
    · intro k hk
      unfold rmfAt
      rw [flatDf_tpAt _ (by omega), flatDf_volAt _ (by omega)]
      norm_num
  norm_num [hrmf, flatDf_vol_winSum]
  rw [fdiv_fin_fin_ne _ _ (by norm_num : (20000:ℚ) ≠ 0)]
  norm_num [fillnaC_fin]

theorem flatDf_posSum : winSum 14 (posFlowAt flatDf) 24 = 0 := by
  rw [winSum_const 14 _ 24 0 ?_]
  · norm_num
  · intro k hk
    unfold posFlowAt
    rw [if_neg]
    rintro ⟨h1, h2⟩
    rw [flatDf_tpAt _ (by omega), flatDf_tpAt _ (by omega)] at h2
    exact lt_irrefl _ h2

theorem flatDf_negSum : winSum 14 (negFlowAt flatDf) 24 = 0 := by
  rw [winSum_const 14 _ 24 0 ?_]
  · norm_num
  · intro k hk
    unfold negFlowAt
    rw [if_neg]
    rintro ⟨h1, h2⟩
    rw [flatDf_tpAt _ (by omega), flatDf_tpAt _ (by omega)] at h2
    exact lt_irrefl _ h2

theorem flatDf_mfi : mfiAt flatDf 24 = .fin 50 := by
  unfold mfiAt mfiRatAt rollSum
  norm_num [flatDf_posSum, flatDf_negSum, fdiv_zero_zero, osc100_nan,
    fillnaC_nan]

theorem flatDf_cmf : cmfAt flatDf 24 = .fin 0 := by
  unfold cmfAt rollSumF rollSum
  have hmfv : ((List.range 20).map
      (fun k => mfvAt flatDf (24 + 1 - 20 + k))).foldr fadd (.fin 0)
      = .fin 0 := by
    apply foldr_fadd_zero
    intro x hx
    rcases List.mem_map.mp hx with ⟨k, hk, rfl⟩
    have hk20 := List.mem_range.mp hk
    unfold mfvAt mfmOf
    rw [flatDf_barAt _ (by omega)]
    norm_num [fdiv_zero_zero, fillnaC_nan, fmul]
  norm_num [hmfv, flatDf_vol_winSum]
  rw [fdiv_fin_fin_ne _ _ (by norm_num : (20000:ℚ) ≠ 0)]
  norm_num [fillnaC_fin]

theorem incDf_barAt (j : ℕ) (h : j < 15) :
    barAt incDf j =
      ⟨100 + (j : ℚ), 100 + (j : ℚ), 100 + (j : ℚ), 100 + (j : ℚ), 1000⟩ := by
  unfold incDf
  exact barAt_ofFn 15 _ j h

theorem incDf_tpAt (j : ℕ) (h : j < 15) : tpAt incDf j = 100 + (j : ℚ) := by
  unfold tpAt
  rw [incDf_barAt j h]
  field_simp
  ring

theorem incDf_valid : ∀ b ∈ incDf, ValidBar b := by
  intro b hb
  rcases List.mem_map.mp hb with ⟨j, _, rfl⟩
  unfold ValidBar
  refine ⟨?_, le_refl _, le_refl _, ?_⟩
  · show (0 : ℚ) ≤ 100 + (j : ℚ)
    positivity
  · show (0 : ℚ) ≤ 1000
    norm_num

theorem incDf_negSum : winSum 14 (negFlowAt incDf) 14 = 0 := by
  rw [winSum_const 14 _ 14 0 ?_]
  · norm_num
  · intro k hk
    have hidx : 14 + 1 - 14 + k = k + 1 := by omega
    rw [hidx]
    unfold negFlowAt
    rw [if_neg]
    rintro ⟨-, h2⟩
    rw [Nat.add_sub_cancel] at h2
    rw [incDf_tpAt (k + 1) (by omega), incDf_tpAt k (by omega)] at h2
    push_cast at h2
    linarith

theorem incDf_posFlow14 : posFlowAt incDf 14 = 114000 := by
  unfold posFlowAt
  rw [if_pos]
  · unfold rmfAt volAt
    rw [incDf_tpAt 14 (by norm_num), incDf_barAt 14 (by norm_num)]
    norm_num
  · refine ⟨by norm_num, ?_⟩
    rw [incDf_tpAt 13 (by norm_num), incDf_tpAt 14 (by norm_num)]
    norm_num

theorem incDf_posSum_pos : 0 < winSum 14 (posFlowAt incDf) 14 := by
  have hval := validBar_barAt incDf incDf_valid
  have hnn : ∀ x ∈ winList 14 (posFlowAt incDf) 14, 0 ≤ x := by
    intro x hx
    rcases List.mem_map.mp hx with ⟨k, _, rfl⟩
    exact posFlowAt_nonneg incDf hval _
  have hmem : posFlowAt incDf 14 ∈ winList 14 (posFlowAt incDf) 14 :=
    List.mem_map.mpr ⟨13, List.mem_range.mpr (by norm_num), by norm_num⟩
  have hle := List.single_le_sum hnn _ hmem
  have : (0 : ℚ) < posFlowAt incDf 14 := by rw [incDf_posFlow14]; norm_num
  unfold winSum
  linarith

theorem incDf_mfi : mfiAt incDf 14 = .fin 100 := by
  unfold mfiAt mfiRatAt rollSum
  norm_num [incDf_negSum]
  rw [fdiv_fin_zero_pos _ incDf_posSum_pos, osc100_inf, fillnaC_fin]

/-!
## Ranking order facts
-/

instance : IsTotal ScanResult scoreRvolGE :=
  ⟨by
    intro a b
    unfold scoreRvolGE
    rcases lt_trichotomy a.score b.score with h | h | h
    · exact Or.inr (Or.inl h)
    · rcases le_total b.rvolToday a.rvolToday with hr | hr
      · exact Or.inl (Or.inr ⟨h, hr⟩)
      · exact Or.inr (Or.inr ⟨h.symm, hr⟩)
    · exact Or.inl (Or.inl h)⟩

instance : IsTrans ScanResult scoreRvolGE :=
  ⟨by
    intro a b c hab hbc
    unfold scoreRvolGE at *
    rcases hab with h1 | ⟨h1, h1r⟩ <;> rcases hbc with h2 | ⟨h2, h2r⟩
    · exact Or.inl (lt_trans h2 h1)
    · exact Or.inl (h2 ▸ h1)
    · exact Or.inl (by omega)
    · exact Or.inr ⟨h1.trans h2, le_trans h2r h1r⟩⟩

/-!
## Claim theorems
-/

/-- Claim C4 (confirmed): every series passing the Safety Filter has most
recent close strictly above 60 and trailing-20 average volume times last
close at least 2,000,000,000; every series shorter than 20 bars fails
with reason "Insufficient Data". -/
theorem C4_safety_filter (df : List Bar) :
    ((check_safety_criteria df).1 = true →
      60 < lastClose df ∧ 2000000000 ≤ avgVol20 df * lastClose df) ∧
    (df.length < 20 → check_safety_criteria df = (false, "Insufficient Data")) := by
  constructor
  · intro hpass
    unfold check_safety_criteria at hpass
    by_cases h1 : df.length < 20
    · simp [h1] at hpass
    · simp only [h1, if_false] at hpass
      by_cases h2 : lastClose df ≤ 60
      · simp [h2] at hpass
      · by_cases h3 : avgVol20 df * lastClose df < 2000000000
        · simp [h2, h3] at hpass
        · push_neg at h2 h3
          exact ⟨h2, h3⟩
  · intro hshort
    unfold check_safety_criteria
    simp [hshort]

/-- A 20-bar series that passes the Safety Filter. -/
def passDf : List Bar := List.replicate 20 ⟨100, 100, 100, 100, 1000000000⟩

theorem passDf_lastClose : lastClose passDf = 100 := by
  unfold lastClose closeAt passDf
  rw [show (List.replicate 20
      (⟨100, 100, 100, 100, 1000000000⟩ : Bar)).length - 1 = 19 by rfl,
    barAt_replicate 20 _ 19 (by norm_num)]

theorem passDf_avgVol : avgVol20 passDf = 1000000000 := by
  unfold avgVol20 passDf
  simp [List.map_replicate, List.sum_replicate]
  norm_num

theorem passDf_passes : (check_safety_criteria passDf).1 = true := by
  unfold check_safety_criteria
  rw [if_neg (by norm_num [passDf])]
  rw [passDf_lastClose, passDf_avgVol]
  norm_num

/-- Witness for C4: a concrete passing series and a concrete short
series. -/
theorem C4_witness :
    (60 < lastClose passDf ∧ 2000000000 ≤ avgVol20 passDf * lastClose passDf) ∧
    check_safety_criteria ([] : List Bar) = (false, "Insufficient Data") :=
  ⟨(C4_safety_filter passDf).1 passDf_passes,
   (C4_safety_filter []).2 (by norm_num)⟩

/-- Claim C5 (confirmed): the score returned by the Signal Scorer is an
integer in `[0, 5]` for every input row (in particular for rows with all
fields finite): every rule contribution is non-negative and the sum is
clamped at 5. -/
theorem C5_score_in_range (row : IndRow) :
    0 ≤ (analyze_single_row row).score ∧ (analyze_single_row row).score ≤ 5 := by
  unfold analyze_single_row
  dsimp only
  split_ifs <;> omega

/-- Claim C9 (confirmed): the analyzer reads only the `rvol`, `cmf`,
`close`, `vwap`, `mfi` fields of its row; rows agreeing on those five
fields get identical status, score and details. -/
theorem C9_five_field_dependence (r1 r2 : IndRow)
    (hrvol : r1.rvol = r2.rvol) (hcmf : r1.cmf = r2.cmf)
    (hclose : r1.close = r2.close) (hvwap : r1.vwap = r2.vwap)
    (hmfi : r1.mfi = r2.mfi) :
    analyze_single_row r1 = analyze_single_row r2 := by
  unfold analyze_single_row
  rw [hrvol, hcmf, hclose, hvwap, hmfi]

/-- Two rows agreeing on the five analyzer inputs but differing in every
other field (open, high, low, volume, sma_20, rsi, vol_ma_20, sma_200). -/
def rowA : IndRow :=
  ⟨1, 2, 3, 4, 5, .fin 6, .fin 7, .fin 8, .fin 9, .fin 10, .fin 11, .fin 12,
    .fin 13⟩

def rowB : IndRow :=
  ⟨101, 102, 103, 4, 105, .fin 6, .inf, .nan, .ninf, .fin 10, .fin 11,
    .fin 12, .fin 113⟩

/-- Witness for C9 at two concrete rows differing in rsi, bands and
volume fields. -/
theorem C9_witness : analyze_single_row rowA = analyze_single_row rowB :=
  C9_five_field_dependence rowA rowB rfl rfl rfl rfl rfl

/-- Claim C6 (confirmed): in "top-N by sector" mode the output table is
sorted non-increasing by the composite key (Score, RVOL-today) — ties in
Score broken by higher RVOL — and holds at most 10 rows. -/
theorem C6_rank_sorted_truncated (rs : List ScanResult) :
    List.Sorted scoreRvolGE (rankTop10 rs) ∧ (rankTop10 rs).length ≤ 10 := by
  constructor
  · unfold rankTop10
    exact List.Pairwise.sublist (List.take_sublist 10 _)
      (List.sorted_insertionSort scoreRvolGE rs)
  · unfold rankTop10
    rw [List.length_take]
    exact min_le_left _ _

/-- Claim C8 (confirmed): for a bar satisfying the bar invariant with
`high == low`, the money-flow multiplier is the finite value 0 (the `0/0`
`NaN` is immediately filled with 0), not an infinity. -/
theorem C8_mfm_guarded (b : Bar) (h1 : b.low ≤ b.close)
    (h2 : b.close ≤ b.high) (h3 : b.high = b.low) : mfmOf b = .fin 0 := by
  unfold mfmOf
  have hcl : b.close = b.low := le_antisymm (h3 ▸ h2) h1
  have hnum : (b.close - b.low) - (b.high - b.close) = 0 := by
    rw [hcl, h3]; ring
  have hden : b.high - b.low = 0 := by rw [h3]; ring
  rw [hnum, hden, fdiv_zero_zero, fillnaC_nan]

/-- Witness for C8 at a concrete degenerate bar. -/
theorem C8_witness : mfmOf ⟨100, 100, 100, 100, 1000⟩ = .fin 0 :=
  C8_mfm_guarded ⟨100, 100, 100, 100, 1000⟩ (le_refl _) (le_refl _) rfl

/-- Claim C2 (confirmed): for every input series whose bars satisfy the
data-model invariant, every row produced by the Indicator Engine carries
finite (never `NaN`/`inf`) rvol, rsi, mfi and cmf values — including
constant-price and all-zero-volume series. -/
theorem C2_indicators_finite (df : List Bar) (hdf : ∀ b ∈ df, ValidBar b) :
    ∀ row ∈ calculate_indicators df,
      row.rvol.isFinite = true ∧ row.rsi.isFinite = true ∧
      row.mfi.isFinite = true ∧ row.cmf.isFinite = true := by
  intro row hrow
  rcases List.mem_map.mp hrow with ⟨i, _, rfl⟩
  have h := validBar_barAt df hdf
  exact ⟨rvolAt_isFinite df h i, rsiAt_isFinite df i,
    mfiAt_isFinite df h i, cmfAt_isFinite df h i⟩

/-- A single-bar series with constant price used as the C2 witness (the
rolling windows are all undefined and every fallback fires). -/
def oneBarDf : List Bar := [⟨100, 100, 100, 100, 0⟩]

/-- Witness for C2 at a one-bar zero-volume constant-price series. -/
theorem C2_witness :
    (indRowAt oneBarDf 0).rvol.isFinite = true ∧
    (indRowAt oneBarDf 0).rsi.isFinite = true ∧
    (indRowAt oneBarDf 0).mfi.isFinite = true ∧
    (indRowAt oneBarDf 0).cmf.isFinite = true := by
  apply C2_indicators_finite oneBarDf ?_ (indRowAt oneBarDf 0) ?_
  · intro b hb
    rcases List.mem_singleton.mp hb with rfl
    unfold ValidBar
    norm_num
  · unfold calculate_indicators
    exact List.mem_map.mpr ⟨0, List.mem_range.mpr (by norm_num [oneBarDf]), rfl⟩

/-- The concrete row of claim C10: heavy volume, distribution-level CMF,
price above VWAP, oversold MFI. -/
def strongBuyRow : IndRow :=
  { open_ := 100, high := 110, low := 90, close := 100, volume := 1000
    vwap := .fin 50, sma_20 := .fin 100, rsi := .fin 50
    vol_ma_20 := .fin 500, rvol := .fin 2, mfi := .fin 10
    cmf := .fin (-(1 / 10)), sma_200 := .fin 100 }

/-- Claim C10 (confirmed): a row with `cmf < -0.05` (so the narrative
includes "Distribution Detected") can still reach score 4 and status
STRONG BUY, because the distribution branch subtracts nothing. -/
theorem C10_distribution_strong_buy :
    fltB strongBuyRow.cmf (.fin (-(1 / 20))) = true ∧
    analyze_single_row strongBuyRow =
      ⟨"STRONG BUY", 4,
        "VOLUME SPIKE (> 1.5x). Distribution Detected (CMF < -0.05). Bullish Trend > VWAP. Strategic Dip Buy (Oversold + Uptrend)."⟩ := by
  have c1 : fgtB strongBuyRow.rvol (.fin (3 / 2)) = true := by
    show fltB (.fin (3 / 2)) (.fin 2) = true
    simp [fltB]
    norm_num
  have c2 : fgtB strongBuyRow.cmf (.fin (3 / 20)) = false := by
    show fltB (.fin (3 / 20)) (.fin (-(1 / 10))) = false
    simp [fltB]
    norm_num
  have c3 : fgtB strongBuyRow.cmf (.fin (1 / 20)) = false := by
    show fltB (.fin (1 / 20)) (.fin (-(1 / 10))) = false
    simp [fltB]
    norm_num
  have c4 : fltB strongBuyRow.cmf (.fin (-(1 / 20))) = true := by
    show fltB (.fin (-(1 / 10))) (.fin (-(1 / 20))) = true
    simp [fltB]
    norm_num
  have c5 : fgtB (.fin strongBuyRow.close) strongBuyRow.vwap = true := by
    show fltB (.fin 50) (.fin 100) = true
    simp [fltB]
    norm_num
  have c6 : fltB strongBuyRow.mfi (.fin 30) = true := by
    show fltB (.fin 10) (.fin 30) = true
    simp [fltB]
    norm_num
  refine ⟨c4, ?_⟩
  unfold analyze_single_row
  rw [c1, c2, c3, c4, c5, c6]
  norm_num
  rfl

/-- Claim C1 counterexample: on a 15-bar strictly rising series the
14-bar negative money-flow sum at index 14 is zero while the positive sum
is strictly positive, and the mfi value the Indicator Engine produces is
100, not the claimed fallback 50 (`pos/0` is `+inf` in float semantics
and `fillna(50)` only replaces `NaN`). -/
theorem C1_counterexample :
    rollSum 14 (negFlowAt incDf) 14 = .fin 0 ∧
    (∃ p : ℚ, rollSum 14 (posFlowAt incDf) 14 = .fin p ∧ 0 < p) ∧
    (indRowAt incDf 14).mfi = .fin 100 ∧ (indRowAt incDf 14).mfi ≠ .fin 50 := by
  refine ⟨?_, ⟨winSum 14 (posFlowAt incDf) 14, ?_, incDf_posSum_pos⟩, ?_, ?_⟩
  · unfold rollSum
    norm_num [incDf_negSum]
  · unfold rollSum
    norm_num
  · exact incDf_mfi
  · show mfiAt incDf 14 ≠ .fin 50
    rw [incDf_mfi]
    simp only [ne_eq, FVal.fin.injEq]
    norm_num

/-- Claim C1 (corrected): at an index with sufficient history where the
14-bar negative money-flow sum is zero, the Indicator Engine yields
mfi = 50 only when the positive sum is also zero (the `0/0` `NaN` is
filled with 50); when the positive sum is strictly positive the ratio is
`+inf` and the mfi value is 100, not 50. -/
theorem C1_mfi_zero_denominator (df : List Bar) (i : ℕ)
    (_hist : 14 ≤ i + 1)
    (hneg : rollSum 14 (negFlowAt df) i = .fin 0) :
    (rollSum 14 (posFlowAt df) i = .fin 0 → (indRowAt df i).mfi = .fin 50) ∧
    (∀ p : ℚ, rollSum 14 (posFlowAt df) i = .fin p → 0 < p →
      (indRowAt df i).mfi = .fin 100) := by
  constructor
  · intro hpos
    show mfiAt df i = .fin 50
    unfold mfiAt mfiRatAt
    rw [hpos, hneg, fdiv_zero_zero, osc100_nan, fillnaC_nan]
  · intro p hp hppos
    show mfiAt df i = .fin 100
    unfold mfiAt mfiRatAt
    rw [hp, hneg, fdiv_fin_zero_pos _ hppos, osc100_inf, fillnaC_fin]

/-- Witness for C1: the zero/zero case yields 50 on the flat series, the
positive/zero case yields 100 on the rising series. -/
theorem C1_witness :
    (indRowAt flatDf 24).mfi = .fin 50 ∧ (indRowAt incDf 14).mfi = .fin 100 := by
  constructor
  · apply (C1_mfi_zero_denominator flatDf 24 (by norm_num) ?_).1 ?_
    · unfold rollSum
      norm_num [flatDf_negSum]
    · unfold rollSum
      norm_num [flatDf_posSum]
  · exact (C1_mfi_zero_denominator incDf 14 (by norm_num)
      (by unfold rollSum; norm_num [incDf_negSum])).2
      (winSum 14 (posFlowAt incDf) 14)
      (by unfold rollSum; norm_num) incDf_posSum_pos

/-- Claim C7 (confirmed): on the 25-bar flat series (close 100, volume
1000 on every bar) the last enriched row has rvol 1.0, cmf 0 and mfi 50,
and the Signal Scorer returns score 0 with status NEUTRAL/WAIT. -/
theorem C7_flat_scenario :
    (calculate_indicators flatDf)[24]? = some (indRowAt flatDf 24) ∧
    (indRowAt flatDf 24).rvol = .fin 1 ∧
    (indRowAt flatDf 24).cmf = .fin 0 ∧
    (indRowAt flatDf 24).mfi = .fin 50 ∧
    analyze_single_row (indRowAt flatDf 24) =
      ⟨"NEUTRAL/WAIT", 0, "Price below Intraday Trend (VWAP)."⟩ := by
  refine ⟨?_, flatDf_rvol, flatDf_cmf, flatDf_mfi, ?_⟩
  · unfold calculate_indicators
    rw [List.getElem?_map]
    norm_num [flatDf]
  · have c1 : fgtB (indRowAt flatDf 24).rvol (.fin (3 / 2)) = false := by
      show fgtB (rvolAt flatDf 24) (.fin (3 / 2)) = false
      rw [flatDf_rvol]
      show fltB (.fin (3 / 2)) (.fin 1) = false
      simp [fltB]
      norm_num
    have c2 : fgtB (indRowAt flatDf 24).cmf (.fin (3 / 20)) = false := by
      show fgtB (cmfAt flatDf 24) (.fin (3 / 20)) = false
      rw [flatDf_cmf]
      show fltB (.fin (3 / 20)) (.fin 0) = false
      simp [fltB]
      norm_num
    have c3 : fgtB (indRowAt flatDf 24).cmf (.fin (1 / 20)) = false := by
      show fgtB (cmfAt flatDf 24) (.fin (1 / 20)) = false
      rw [flatDf_cmf]
      show fltB (.fin (1 / 20)) (.fin 0) = false
      simp [fltB]
    have c4 : fltB (indRowAt flatDf 24).cmf (.fin (-(1 / 20))) = false := by
      show fltB (cmfAt flatDf 24) (.fin (-(1 / 20))) = false
      rw [flatDf_cmf]
      simp [fltB]
    have hclose : (indRowAt flatDf 24).close = 100 := by
      show (barAt flatDf 24).close = 100
      rw [flatDf_barAt 24 (by norm_num)]
    have c5 : fgtB (.fin (indRowAt flatDf 24).close)
        (indRowAt flatDf 24).vwap = false := by
      rw [hclose]
      show fgtB (.fin 100) (vwapAt flatDf 24) = false
      rw [flatDf_vwap]
      show fltB (.fin 100) (.fin 100) = false
      simp [fltB]
    have c6 : fltB (indRowAt flatDf 24).mfi (.fin 30) = false := by
      show fltB (mfiAt flatDf 24) (.fin 30) = false
      rw [flatDf_mfi]
      simp [fltB]
      norm_num
    have c7 : fgtB (indRowAt flatDf 24).mfi (.fin 75) = false := by
      show fgtB (mfiAt flatDf 24) (.fin 75) = false
      rw [flatDf_mfi]
      show fltB (.fin 75) (.fin 50) = false
      simp [fltB]
      norm_num
    unfold analyze_single_row
    rw [c1, c2, c3, c4, c5, c6, c7]
    norm_num
    rfl

/-- Claim C3 counterexample: a manual ticker field consisting of a single
comma is truthy after strip, parses to ZERO tickers, reaches dispatch,
and ends in exactly the same "no matches" warning as a one-ticker scan
whose ticker fails the Safety Filter — the zero-ticker invocation is
neither fatal nor distinguishable from the no-matches outcome. -/
theorem C3_counterexample :
    parseManualTickers "," = [] ∧
    scanApp "," "Manual Input / None" (fun _ => []) (fun _ => none) =
      .noMatches ∧
    scanApp "BBCA.JK" "Manual Input / None" (fun _ => []) (fun _ => none) =
      .noMatches := by
  refine ⟨by decide, by decide, by decide⟩

/-- Claim C3 (corrected): only the invocation with empty manual input and
no sector selected fails with the distinct invalid-request outcome (and
dispatches nothing); a manual input that is non-blank but parses to zero
tickers is dispatched as zero worker tasks and reported with the same
"no matches" outcome as a scan in which every ticker failed the Safety
Filter. -/
theorem C3_empty_scan_outcomes (sectorMap : String → List String)
    (perTicker : String → Option ScanResult) :
    scanApp "" "Manual Input / None" sectorMap perTicker = .invalidRequest ∧
    (∀ s : String, strippedNonempty s = true → parseManualTickers s = [] →
      scanApp s "Manual Input / None" sectorMap perTicker = .noMatches) := by
  constructor
  · rfl
  · intro s h1 h2
    unfold scanApp decideTickers
    rw [if_pos h1, h2]
    rfl

/-- Witness for C3: the corrected behaviour at concrete inputs. -/
theorem C3_witness :
    scanApp "" "Manual Input / None" (fun _ => []) (fun _ => none) =
      .invalidRequest ∧
    scanApp "," "Manual Input / None" (fun _ => []) (fun _ => none) =
      .noMatches :=
  ⟨(C3_empty_scan_outcomes (fun _ => []) (fun _ => none)).1,
   (C3_empty_scan_outcomes (fun _ => []) (fun _ => none)).2 ","
     (by decide) (by decide)⟩
